import Mathlib

/-!
Verification of the scheduling/placement engine of the `narabetask2` board:
time arithmetic (`src/utils/timeUtils.ts`), task repository operations and
conflict detection (`src/services/taskService.ts`), the slot occupancy index
(`src/utils/timelineUtils.ts`), the conflict message generation
(`src/services/conflictService.ts`) and the placement policy
(`useTasks.dropTaskToTimeline` in `src/hooks/useTasks.ts`).

Times are `"HH:MM"` strings; durations are counts of 15-minute units.
JavaScript numbers on the valid inputs exercised here are natural numbers,
so they are embedded as `Nat`.  JavaScript's `NaN` results on malformed
time strings are not modelled (the spec declares malformed input undefined
behavior); the parsing helpers return a junk value (`0`) off the valid
domain, and no theorem below depends on that junk value.
-/

namespace NarabeTask

/-- Splits a character list at every occurrence of the separator `c`,
mirroring JavaScript `String.prototype.split` with a single-character
separator: `"a:b:c".split(':') = ["a","b","c"]`, `"".split(':') = [""]`. -/
def splitOnChar (c : Char) : List Char → List (List Char)
  | [] => [[]]
  | x :: xs =>
    if x = c then [] :: splitOnChar c xs
    else
      match splitOnChar c xs with
      | [] => [[x]]
      | y :: ys => (x :: y) :: ys

/-- Decimal digit-string evaluation with an accumulator: `none` on any
non-digit character, mirroring JavaScript `Number` (which yields `NaN`)
on digit-only inputs; `""` evaluates to `0` exactly as `Number('')` does. -/
def parseDigitsAcc : Nat → List Char → Option Nat
  | acc, [] => some acc
  | acc, c :: cs =>
    if c.isDigit then parseDigitsAcc (acc * 10 + (c.toNat - 48)) cs
    else none

/-- JavaScript `Number` restricted to the inputs the engine feeds it
(digit strings); non-digit input produces `NaN` in the source, embedded
here as the junk value `0` (no claim depends on it). -/
def parseNat (l : List Char) : Nat := (parseDigitsAcc 0 l).getD 0

/-- Function `timeToMinutes` from `src/utils/timeUtils.ts`:
`const [hours, minutes] = timeStr.split(':').map(Number);
 return hours * 60 + minutes;` -/
def timeToMinutes (timeStr : String) : Nat :=
  let parts := (splitOnChar ':' timeStr.data).map parseNat
  parts.getD 0 0 * 60 + parts.getD 1 0

/-- JavaScript `String.prototype.padStart(2, '0')`: prepend `'0'`s until
the length is at least 2. -/
def padStart2 (s : String) : String :=
  if s.length ≥ 2 then s
  else ⟨List.replicate (2 - s.length) '0' ++ s.data⟩

/-- Function `minutesToTime` from `src/utils/timeUtils.ts`:
`` `${hours.toString().padStart(2,'0')}:${mins.toString().padStart(2,'0')}` ``
with `hours = Math.floor(minutes / 60)` and `mins = minutes % 60`.
(The identical private helper `TimelineUtils.minutesToTime` in
`src/utils/timelineUtils.ts` is this same function.) -/
def minutesToTime (minutes : Nat) : String :=
  let hours := minutes / 60
  let mins := minutes % 60
  padStart2 (Nat.repr hours) ++ ":" ++ padStart2 (Nat.repr mins)

/-- The loop body of `generateTimeSlots`:
`for (let minutes = startMinutes; minutes < endMinutes; minutes += 15)`.
The `fuel` argument only bounds the number of iterations (the source loop
terminates because each iteration adds 15); `generateTimeSlots` passes
enough fuel for all iterations, as `genSlotsAux_eq` below proves. -/
def genSlotsAux (endMinutes : Nat) : Nat → Nat → List String
  | 0, _ => []
  | fuel + 1, minutes =>
    if minutes < endMinutes then
      minutesToTime minutes :: genSlotsAux endMinutes fuel (minutes + 15)
    else []

/-- Function `generateTimeSlots` from `src/utils/timeUtils.ts`. -/
def generateTimeSlots (startTime endTime : String) : List String :=
  let startMinutes := timeToMinutes startTime
  let endMinutes := timeToMinutes endTime
  genSlotsAux endMinutes (endMinutes - startMinutes) startMinutes

/-- Function `formatDuration` from `src/utils/timeUtils.ts`. -/
def formatDuration (duration : Nat) : String :=
  let totalMinutes := duration * 15
  let hours := totalMinutes / 60
  let minutes := totalMinutes % 60
  if hours > 0 ∧ minutes > 0 then Nat.repr hours ++ "時間" ++ Nat.repr minutes ++ "分"
  else if hours > 0 then Nat.repr hours ++ "時間"
  else Nat.repr minutes ++ "分"

/-- Function `isWithinWorkingHours` from `src/utils/timeUtils.ts`:
`startMinutes >= workStartMinutes && endMinutes <= workEndMinutes`. -/
def isWithinWorkingHours (startTime : String) (duration : Nat)
    (workingStart workingEnd : String) : Bool :=
  let startMinutes := timeToMinutes startTime
  let endMinutes := startMinutes + duration * 15
  let workStartMinutes := timeToMinutes workingStart
  let workEndMinutes := timeToMinutes workingEnd
  decide (startMinutes ≥ workStartMinutes ∧ endMinutes ≤ workEndMinutes)

/-- Structure `Position` from `src/types.ts`. -/
structure Position where
  row : Nat
  startTime : String
deriving DecidableEq

/-- Structure `Task` from `src/types.ts`; `position = none` means the task is in the
pool, `some` means it is placed on the timeline. -/
structure Task where
  id : String
  name : String
  duration : Nat
  position : Option Position
deriving DecidableEq

/-- Method `TaskService.updateTaskInList` from `src/services/taskService.ts`. -/
def updateTaskInList (tasks : List Task) (updatedTask : Task) : List Task :=
  tasks.map fun task => if task.id = updatedTask.id then updatedTask else task

/-- Method `TaskService.deleteTaskFromList` from `src/services/taskService.ts`. -/
def deleteTaskFromList (tasks : List Task) (taskId : String) : List Task :=
  tasks.filter fun task => task.id != taskId

/-- Method `TaskService.placeTaskOnTimeline` from `src/services/taskService.ts`. -/
def placeTaskOnTimeline (tasks : List Task) (taskId : String) (row : Nat)
    (startTime : String) : List Task :=
  tasks.map fun task =>
    if task.id = taskId then { task with position := some ⟨row, startTime⟩ } else task

/-- Method `TaskService.returnTaskToPool` from `src/services/taskService.ts`. -/
def returnTaskToPool (tasks : List Task) (taskId : String) : List Task :=
  tasks.map fun task =>
    if task.id = taskId then { task with position := none } else task

/-- Method `TaskService.findTaskById` from `src/services/taskService.ts`
(`tasks.find(...) || null`, embedded as an `Option`). -/
def findTaskById (tasks : List Task) (taskId : String) : Option Task :=
  tasks.find? fun task => task.id = taskId

/-- Method `TaskService.getPoolTasks` from `src/services/taskService.ts`:
`tasks.filter((task) => task.position === null)`. -/
def getPoolTasks (tasks : List Task) : List Task :=
  tasks.filter fun task => task.position = none

/-- Method `TaskService.getTimelineTasks` from `src/services/taskService.ts`:
`tasks.filter((task) => task.position !== null)`. -/
def getTimelineTasks (tasks : List Task) : List Task :=
  tasks.filter fun task => task.position ≠ none

/-- One element of `ConflictResult.conflictingTasks`
(`{ task, conflictType, overlapType }` in `src/services/taskService.ts`). -/
structure ConflictEntry where
  task : Task
  conflictType : String
  overlapType : String
deriving DecidableEq

/-- Structure `ConflictResult` from `src/services/taskService.ts`. -/
structure ConflictResult where
  hasConflict : Bool
  conflictingTasks : List ConflictEntry
deriving DecidableEq

/-- The loop body of `TaskService.checkTaskConflicts`: the entry pushed for
one `task` of the list, or `none` when the loop body pushes nothing
(candidate's own id, unplaced task, or no time overlap).  The source's
initial dead store `let overlapType = '完全重複'` is overwritten on every
path of the `if`/`else` chain and therefore has no counterpart here. -/
def conflictEntry (taskId : String) (row startMinutes endMinutes : Nat)
    (task : Task) : Option ConflictEntry :=
  if task.id = taskId then none
  else match task.position with
    | none => none
    | some pos =>
      let existingStart := timeToMinutes pos.startTime
      let existingEnd := existingStart + task.duration * 15
      if endMinutes ≤ existingStart ∨ startMinutes ≥ existingEnd then none
      else
        let conflictType :=
          if pos.row = row then "同一行重複"
          else "異なる行重複 (行" ++ Nat.repr (pos.row + 1) ++ ")"
        let overlapType :=
          if startMinutes < existingStart ∧ endMinutes > existingEnd then "包含重複"
          else if startMinutes ≥ existingStart ∧ endMinutes ≤ existingEnd then "内包重複"
          else if startMinutes < existingStart then "前半重複"
          else if endMinutes > existingEnd then "後半重複"
          else "部分重複"
        some { task := task, conflictType := conflictType, overlapType := overlapType }

/-- Method `TaskService.checkTaskConflicts` from `src/services/taskService.ts`. -/
def checkTaskConflicts (tasks : List Task) (taskId : String) (row : Nat)
    (startTime : String) (duration : Nat) : ConflictResult :=
  let startMinutes := timeToMinutes startTime
  let endMinutes := startMinutes + duration * 15
  let conflictingTasks := tasks.filterMap (conflictEntry taskId row startMinutes endMinutes)
  { hasConflict := decide (conflictingTasks.length > 0)
    conflictingTasks := conflictingTasks }

/-- One line of the conflict message built by
`ConflictService.generateConflictMessage` in `src/services/conflictService.ts`.
The source reads `conflictingTask.position!.startTime` (non-null assertion);
entries produced by `checkTaskConflicts` always carry a position, and the
unreachable `none` arm is embedded as the empty string. -/
def conflictLine (e : ConflictEntry) : String :=
  let conflictStart := match e.task.position with
    | some pos => pos.startTime
    | none => ""
  let durationText := formatDuration e.task.duration
  "・" ++ e.conflictType ++ ": \"" ++ e.task.name ++ "\" (" ++ conflictStart
    ++ "開始, " ++ durationText ++ ") - " ++ e.overlapType

/-- Method `ConflictService.generateConflictMessage` from
`src/services/conflictService.ts`. -/
def generateConflictMessage (conflictingTasks : List ConflictEntry) : String :=
  let conflictMessages := String.intercalate "\n" (conflictingTasks.map conflictLine)
  let summary :=
    if conflictingTasks.length = 1 then "1つのタスクと重複"
    else Nat.repr conflictingTasks.length ++ "つのタスクと重複"
  "タスクの時間が重複しています (" ++ summary ++ "):\n\n" ++ conflictMessages
    ++ "\n\n別の時間帯または行に配置してください。"

/-- The association-list embedding of the JavaScript `Map<string, Task[]>`
used by `TimelineUtils.createTimeSlotTaskMap`: keys in insertion order. -/
abbrev SlotMap : Type := List (String × List Task)

/-- JavaScript `map.has(k)`. -/
def mapHas (m : SlotMap) (k : String) : Bool :=
  (m : List (String × List Task)).any fun p => p.1 = k

/-- JavaScript `map.get(k)` with `[]` for a missing key; a `Map` has at
most one entry per key, embedded by reading the first matching entry. -/
def mapGetD : SlotMap → String → List Task
  | [], _ => []
  | p :: rest, k => if p.1 = k then p.2 else mapGetD rest k

/-- JavaScript `map.get(k)!.push(task)`: append `task` to the entry of key
`k` (the first matching entry; a no-op when the key is absent — the source
only pushes after ensuring presence). -/
def mapPush : SlotMap → String → Task → SlotMap
  | [], _, _ => []
  | p :: rest, k, t =>
    if p.1 = k then (p.1, p.2 ++ [t]) :: rest else p :: mapPush rest k t

/-- The inner loop of `TimelineUtils.createTimeSlotTaskMap`
(`src/utils/timelineUtils.ts`):
`for (let time = taskStart; time < taskEnd; time += 15) { ... }`,
where the body ensures the slot key exists (`map.set(timeSlot, [])` appends
a fresh key at the end) and then pushes the task.  `fuel` only bounds the
iteration count; the caller passes `taskEnd - taskStart`, which suffices. -/
def slotLoop (task : Task) (taskEnd : Nat) : Nat → Nat → SlotMap → SlotMap
  | 0, _, m => m
  | fuel + 1, time, m =>
    if time < taskEnd then
      let timeSlot := minutesToTime time
      let m1 := if mapHas m timeSlot then m else m ++ [(timeSlot, [])]
      slotLoop task taskEnd fuel (time + 15) (mapPush m1 timeSlot task)
    else m

/-- The `forEach` body of `TimelineUtils.createTimeSlotTaskMap`: the early
return `if (!task.position) return;` and the slot iteration for one task. -/
def slotStep (m : SlotMap) (task : Task) : SlotMap :=
  match task.position with
  | none => m
  | some pos =>
    let taskStart := timeToMinutes pos.startTime
    let taskEnd := taskStart + task.duration * 15
    slotLoop task taskEnd (taskEnd - taskStart) taskStart m

/-- Method `TimelineUtils.createTimeSlotTaskMap` from `src/utils/timelineUtils.ts`:
filters the placed tasks, then iterates each task's 15-minute slots. -/
def createTimeSlotTaskMap (tasks : List Task) : SlotMap :=
  (tasks.filter fun task => task.position ≠ none).foldl slotStep []

/-- Whether `task` occupies the slot labelled `k` in the sense of
`createTimeSlotTaskMap`'s iteration: some step `i < duration` of its loop
produces the label `k`. -/
def occupiesSlot (task : Task) (k : String) : Bool :=
  match task.position with
  | none => false
  | some pos =>
    (List.range task.duration).any fun i =>
      minutesToTime (timeToMinutes pos.startTime + 15 * i) = k

/-- The outcome of `useTasks.dropTaskToTimeline` (`src/hooks/useTasks.ts`),
embedding the hook's effects: `notFound` for the silent early return,
the two `alert` rejections with their messages, and `placed` for the
committed `setTasks(TaskService.placeTaskOnTimeline(...))`. -/
inductive DropOutcome where
  | notFound
  | conflictRejected (message : String)
  | outsideWorkingHours (message : String)
  | placed
deriving DecidableEq

/-- Hook callback `useTasks.dropTaskToTimeline` from `src/hooks/useTasks.ts`, as a pure
state transform: returns the new task list (the state after `setTasks`,
unchanged on rejection) together with the outcome. -/
def dropTaskToTimeline (workingStart workingEnd : String) (tasks : List Task)
    (taskId : String) (row : Nat) (startTime : String) : List Task × DropOutcome :=
  match findTaskById tasks taskId with
  | none => (tasks, DropOutcome.notFound)
  | some task =>
    let conflictResult := checkTaskConflicts tasks taskId row startTime task.duration
    if conflictResult.hasConflict then
      (tasks, DropOutcome.conflictRejected
        (generateConflictMessage conflictResult.conflictingTasks))
    else if !isWithinWorkingHours startTime task.duration workingStart workingEnd then
      (tasks, DropOutcome.outsideWorkingHours "業務時間外には配置できません")
    else
      (placeTaskOnTimeline tasks taskId row startTime, DropOutcome.placed)

/-- Fixture: a 60-minute task placed at row 0, start `"09:00"`. -/
def sampleTask1 : Task := ⟨"task-1", "タスク 1", 4, some ⟨0, "09:00"⟩⟩

/-- Fixture: a 60-minute task still in the pool. -/
def sampleTask2 : Task := ⟨"task-2", "タスク 2", 4, none⟩

/-- Fixture: the two tasks of the same-time/different-row scenario. -/
def sampleTasks : List Task := [sampleTask1, sampleTask2]

/-- Fixture: the conflict entry reported for the same-time/different-row
scenario. -/
def sampleEntry : ConflictEntry := ⟨sampleTask1, "異なる行重複 (行1)", "内包重複"⟩

/-- Fixture: a 30-minute pool task used for the out-of-hours scenario. -/
def soloPoolTask : Task := ⟨"task-1", "タスク 1", 2, none⟩

/-- Fixture: a one-task list for the out-of-hours scenario. -/
def soloPoolTasks : List Task := [soloPoolTask]

/-- Fixture: a pool task sharing its id with `dupIdPlaced`. -/
def dupIdPool : Task := ⟨"dup", "a", 1, none⟩

/-- Fixture: a placed task sharing its id with `dupIdPool`. -/
def dupIdPlaced : Task := ⟨"dup", "b", 1, some ⟨0, "09:00"⟩⟩

/-- Fixture: a list whose two tasks share one id. -/
def dupIdTasks : List Task := [dupIdPool, dupIdPlaced]

/-! ### Decimal printing and parsing round trip -/

/-- The ten digit characters parse back to their values. -/
theorem digitChar_isDigit : ∀ r < 10, (Nat.digitChar r).isDigit = true ∧
    (Nat.digitChar r).toNat - 48 = r := by decide

/-- Every character `Nat.toDigitsCore` emits (beyond the seed list) is a
decimal digit. -/
theorem toDigitsCore_digits :
    ∀ (f n : Nat) (ds : List Char) (c : Char),
      c ∈ Nat.toDigitsCore 10 f n ds → c ∈ ds ∨ c.isDigit = true := by
  intro f
  induction f with
  | zero => intro n ds c hc; exact Or.inl hc
  | succ f ih =>
    intro n ds c hc
    simp only [Nat.toDigitsCore] at hc
    by_cases h0 : n / 10 = 0
    · rw [if_pos h0] at hc
      rcases List.mem_cons.mp hc with h | h
      · right; rw [h]; exact (digitChar_isDigit (n % 10) (Nat.mod_lt n (by omega))).1
      · exact Or.inl h
    · rw [if_neg h0] at hc
      rcases ih (n / 10) (Nat.digitChar (n % 10) :: ds) c hc with h | h
      · rcases List.mem_cons.mp h with h | h
        · right; rw [h]; exact (digitChar_isDigit (n % 10) (Nat.mod_lt n (by omega))).1
        · exact Or.inl h
      · exact Or.inr h

/-- Consuming one digit character multiplies the accumulator by ten and
adds the digit's value. -/
theorem parseDigitsAcc_digitChar_cons (a r : Nat) (hr : r < 10) (ds : List Char) :
    parseDigitsAcc a (Nat.digitChar r :: ds) = parseDigitsAcc (a * 10 + r) ds := by
  have hd := digitChar_isDigit r hr
  simp [parseDigitsAcc, hd.1, hd.2]

/-- Evaluating the digits `Nat.toDigitsCore` emits shifts the accumulator
by the (positive) number of emitted digits and adds `n`. -/
theorem parseDigitsAcc_toDigitsCore :
    ∀ (f n : Nat) (ds : List Char) (a : Nat), n < f →
      ∃ k, 0 < k ∧ parseDigitsAcc a (Nat.toDigitsCore 10 f n ds) =
        parseDigitsAcc (a * 10 ^ k + n) ds := by
  intro f
  induction f with
  | zero => omega
  | succ f ih =>
    intro n ds a h
    simp only [Nat.toDigitsCore]
    by_cases h0 : n / 10 = 0
    · rw [if_pos h0]
      refine ⟨1, Nat.one_pos, ?_⟩
      rw [parseDigitsAcc_digitChar_cons a (n % 10) (Nat.mod_lt n (by omega)) ds]
      have : a * 10 + n % 10 = a * 10 ^ 1 + n := by rw [pow_one]; omega
      rw [this]
    · rw [if_neg h0]
      have hlt : n / 10 < f := by
        have h1 : n / 10 < n := Nat.div_lt_self (by omega) (by omega)
        omega
      obtain ⟨k, hk, heq⟩ := ih (n / 10) (Nat.digitChar (n % 10) :: ds) a hlt
      refine ⟨k + 1, by omega, ?_⟩
      rw [heq, parseDigitsAcc_digitChar_cons _ (n % 10) (Nat.mod_lt n (by omega)) ds]
      have : (a * 10 ^ k + n / 10) * 10 + n % 10 = a * 10 ^ (k + 1) + n := by
        rw [pow_succ, ← mul_assoc]
        omega
      rw [this]

/-- Printing with `Nat.repr` emits only decimal digits. -/
theorem repr_digits (n : Nat) (c : Char) (hc : c ∈ (Nat.repr n).data) :
    c.isDigit = true := by
  rcases toDigitsCore_digits (n + 1) n [] c hc with h | h
  · cases h
  · exact h

/-- Parsing `Nat.repr` recovers the number. -/
theorem parseDigitsAcc_repr (n : Nat) :
    parseDigitsAcc 0 (Nat.repr n).data = some n := by
  obtain ⟨k, -, heq⟩ := parseDigitsAcc_toDigitsCore (n + 1) n [] 0 (Nat.lt_succ_self n)
  have : (Nat.repr n).data = Nat.toDigitsCore 10 (n + 1) n [] := rfl
  rw [this, heq]
  simp [parseDigitsAcc]

/-- Leading `'0'`s do not change the parsed value. -/
theorem parseDigitsAcc_replicate_zero (j : Nat) (l : List Char) :
    parseDigitsAcc 0 (List.replicate j '0' ++ l) = parseDigitsAcc 0 l := by
  induction j with
  | zero => rfl
  | succ j ih => simpa [parseDigitsAcc] using ih

/-- The character data of `padStart2`. -/
theorem padStart2_data (s : String) :
    (padStart2 s).data = List.replicate (2 - s.length) '0' ++ s.data := by
  unfold padStart2
  by_cases h : s.length ≥ 2
  · rw [if_pos h]
    have : 2 - s.length = 0 := by omega
    rw [this]
    rfl
  · rw [if_neg h]

/-- The length of `padStart2` is the padding target or the original
length, whichever is larger. -/
theorem padStart2_length (s : String) : (padStart2 s).length = max 2 s.length := by
  have : (padStart2 s).length = (padStart2 s).data.length := rfl
  rw [this, padStart2_data, List.length_append, List.length_replicate]
  have : s.data.length = s.length := rfl
  rw [this]
  omega

/-- Parsing a two-padded decimal representation recovers the number. -/
theorem parseNat_padStart2_repr (n : Nat) :
    parseNat (padStart2 (Nat.repr n)).data = n := by
  unfold parseNat
  rw [padStart2_data, parseDigitsAcc_replicate_zero, parseDigitsAcc_repr]
  rfl

/-- A decimal digit is not the `':'` separator. -/
theorem isDigit_ne_colon (c : Char) (h : c.isDigit = true) : c ≠ ':' := by
  intro hc
  rw [hc] at h
  exact absurd h (by decide)

/-- Splitting a list free of the separator. -/
theorem splitOnChar_of_not_mem (c : Char) (l : List Char)
    (h : ∀ x ∈ l, x ≠ c) : splitOnChar c l = [l] := by
  induction l with
  | nil => rfl
  | cons x xs ih =>
    have hx : x ≠ c := h x (List.mem_cons_self x xs)
    have hxs := ih fun y hy => h y (List.mem_cons_of_mem x hy)
    simp only [splitOnChar, if_neg hx, hxs]

/-- Function `splitOnChar` splits off the prefix before the first separator. -/
theorem splitOnChar_append (c : Char) (A B : List Char)
    (hA : ∀ x ∈ A, x ≠ c) :
    splitOnChar c (A ++ c :: B) = A :: splitOnChar c B := by
  induction A with
  | nil => simp [splitOnChar]
  | cons x xs ih =>
    have hx : x ≠ c := hA x (List.mem_cons_self x xs)
    have hxs := ih fun y hy => hA y (List.mem_cons_of_mem x hy)
    simp only [List.cons_append, splitOnChar, if_neg hx]
    rw [show splitOnChar c (List.append xs (c :: B)) = xs :: splitOnChar c B from hxs]

/-- The full parse/print round trip: `timeToMinutes` inverts
`minutesToTime` on every minute count (`C5` restricts this to a day). -/
theorem timeToMinutes_minutesToTime (m : Nat) :
    timeToMinutes (minutesToTime m) = m := by
  have hA : ∀ x ∈ (padStart2 (Nat.repr (m / 60))).data, x ≠ ':' := by
    intro x hx
    rw [padStart2_data] at hx
    rcases List.mem_append.mp hx with h | h
    · exact isDigit_ne_colon x (by rw [List.eq_of_mem_replicate h]; decide)
    · exact isDigit_ne_colon x (repr_digits _ x h)
  have hB : ∀ x ∈ (padStart2 (Nat.repr (m % 60))).data, x ≠ ':' := by
    intro x hx
    rw [padStart2_data] at hx
    rcases List.mem_append.mp hx with h | h
    · exact isDigit_ne_colon x (by rw [List.eq_of_mem_replicate h]; decide)
    · exact isDigit_ne_colon x (repr_digits _ x h)
  have hdata : (minutesToTime m).data =
      (padStart2 (Nat.repr (m / 60))).data ++ ':' ::
        (padStart2 (Nat.repr (m % 60))).data := by
    simp [minutesToTime, String.data_append]
  unfold timeToMinutes
  rw [hdata, splitOnChar_append _ _ _ hA,
    splitOnChar_of_not_mem _ _ hB]
  simp only [List.map_cons, List.map_nil, List.getD_cons_zero, List.getD_cons_succ]
  rw [parseNat_padStart2_repr, parseNat_padStart2_repr]
  omega

/-- Validity predicate for zero-padded `"HH:MM"` strings whose value is an
in-range time of day: five characters, a `':'` in the middle, digits
elsewhere, hour at most 23 and minute at most 59. -/
def isValidHHMM (s : String) : Bool :=
  match s.data with
  | [h1, h2, c, m1, m2] =>
    h1.isDigit && h2.isDigit && decide (c = ':') && m1.isDigit && m2.isDigit &&
      decide ((h1.toNat - 48) * 10 + (h2.toNat - 48) ≤ 23) &&
      decide ((m1.toNat - 48) * 10 + (m2.toNat - 48) ≤ 59)
  | _ => false

/-- Characters with equal code points are equal. -/
theorem char_eq_of_toNat_eq (c d : Char) (h : c.toNat = d.toNat) : c = d :=
  Char.ext (UInt32.ext h)

/-- The code point of a digit character is between 48 and 57. -/
theorem isDigit_le (c : Char) (h : c.isDigit = true) :
    48 ≤ c.toNat ∧ c.toNat ≤ 57 := by
  simp [Char.isDigit] at h
  exact h

/-- Code points of the ten digit characters. -/
theorem digitChar_toNat : ∀ r < 10, (Nat.digitChar r).toNat = r + 48 := by decide

/-- Two-padded decimal printing of a two-digit value, digit by digit. -/
theorem pad2_repr_digits : ∀ x < 10, ∀ y < 10,
    padStart2 (Nat.repr (x * 10 + y)) = ⟨[Nat.digitChar x, Nat.digitChar y]⟩ := by
  decide

/-- A digit character is reprinted by `Nat.digitChar` from its value. -/
theorem digitChar_of_isDigit (c : Char) (h : c.isDigit = true) :
    Nat.digitChar (c.toNat - 48) = c := by
  obtain ⟨h1, h2⟩ := isDigit_le c h
  apply char_eq_of_toNat_eq
  rw [digitChar_toNat (c.toNat - 48) (by omega)]
  omega

/-- Parsing two digit characters yields the two-digit value. -/
theorem parseNat_two_digits (a b : Char) (ha : a.isDigit = true)
    (hb : b.isDigit = true) :
    parseNat [a, b] = (a.toNat - 48) * 10 + (b.toNat - 48) := by
  simp [parseNat, parseDigitsAcc, ha, hb]

/-- Function `minutesToTime` inverts `timeToMinutes` on every valid zero-padded
`"HH:MM"` string. -/
theorem minutesToTime_timeToMinutes (s : String) (h : isValidHHMM s = true) :
    minutesToTime (timeToMinutes s) = s := by
  obtain ⟨data⟩ := s
  match data, h with
  | [h1, h2, c, m1, m2], h => ?_
  simp only [isValidHHMM, Bool.and_eq_true, decide_eq_true_eq] at h
  obtain ⟨⟨⟨⟨⟨⟨hd1, hd2⟩, hc⟩, hd3⟩, hd4⟩, hH⟩, hM⟩ := h
  subst hc
  have hne1 : ∀ x ∈ [h1, h2], x ≠ ':' := by
    intro x hx
    rcases List.mem_cons.mp hx with h | h
    · subst h; exact isDigit_ne_colon x hd1
    · rw [List.mem_singleton.mp h]; exact isDigit_ne_colon h2 hd2
  have hne2 : ∀ x ∈ [m1, m2], x ≠ ':' := by
    intro x hx
    rcases List.mem_cons.mp hx with h | h
    · subst h; exact isDigit_ne_colon x hd3
    · rw [List.mem_singleton.mp h]; exact isDigit_ne_colon m2 hd4
  have hsplit : splitOnChar ':' [h1, h2, ':', m1, m2] = [[h1, h2], [m1, m2]] := by
    have := splitOnChar_append ':' [h1, h2] [m1, m2] hne1
    rw [splitOnChar_of_not_mem ':' [m1, m2] hne2] at this
    exact this
  have hdata : (String.mk [h1, h2, ':', m1, m2]).data = [h1, h2, ':', m1, m2] := rfl
  have htime : timeToMinutes ⟨[h1, h2, ':', m1, m2]⟩ =
      ((h1.toNat - 48) * 10 + (h2.toNat - 48)) * 60 +
        ((m1.toNat - 48) * 10 + (m2.toNat - 48)) := by
    unfold timeToMinutes
    rw [hdata, hsplit]
    simp only [List.map_cons, List.map_nil, List.getD_cons_zero, List.getD_cons_succ]
    rw [parseNat_two_digits h1 h2 hd1 hd2, parseNat_two_digits m1 m2 hd3 hd4]
  rw [htime]
  unfold minutesToTime
  dsimp only
  have e1 : (((h1.toNat - 48) * 10 + (h2.toNat - 48)) * 60 +
      ((m1.toNat - 48) * 10 + (m2.toNat - 48))) / 60 =
      (h1.toNat - 48) * 10 + (h2.toNat - 48) := by omega
  have e2 : (((h1.toNat - 48) * 10 + (h2.toNat - 48)) * 60 +
      ((m1.toNat - 48) * 10 + (m2.toNat - 48))) % 60 =
      (m1.toNat - 48) * 10 + (m2.toNat - 48) := by omega
  rw [e1, e2]
  have hb1 : h1.toNat - 48 < 10 := by have := isDigit_le h1 hd1; omega
  have hb2 : h2.toNat - 48 < 10 := by have := isDigit_le h2 hd2; omega
  have hb3 : m1.toNat - 48 < 10 := by have := isDigit_le m1 hd3; omega
  have hb4 : m2.toNat - 48 < 10 := by have := isDigit_le m2 hd4; omega
  rw [pad2_repr_digits _ hb1 _ hb2, pad2_repr_digits _ hb3 _ hb4,
    digitChar_of_isDigit h1 hd1, digitChar_of_isDigit h2 hd2,
    digitChar_of_isDigit m1 hd3, digitChar_of_isDigit m2 hd4]
  apply String.ext
  simp [String.data_append]

/-- Function `minutesToTime` is injective. -/
theorem minutesToTime_inj (m1 m2 : Nat)
    (h : minutesToTime m1 = minutesToTime m2) : m1 = m2 := by
  have := congrArg timeToMinutes h
  rwa [timeToMinutes_minutesToTime, timeToMinutes_minutesToTime] at this

/-! ### The slot-generation loop -/

/-- With enough fuel, the `generateTimeSlots` loop produces exactly the
labels of `startMinutes, startMinutes+15, …` that are strictly below
`endMinutes` — one per 15-minute step, `⌈(end-start)/15⌉` of them. -/
theorem genSlotsAux_eq (e : Nat) :
    ∀ (fuel s : Nat), (e - s + 14) / 15 ≤ fuel →
      genSlotsAux e fuel s =
        (List.range ((e - s + 14) / 15)).map fun i => minutesToTime (s + 15 * i) := by
  intro fuel
  induction fuel with
  | zero =>
    intro s h
    rw [Nat.le_zero] at h
    simp [genSlotsAux, h]
  | succ fuel ih =>
    intro s h
    by_cases hs : s < e
    · have hn : (e - s + 14) / 15 = (e - (s + 15) + 14) / 15 + 1 := by omega
      have hrec := ih (s + 15) (by omega)
      simp only [genSlotsAux, if_pos hs, hrec, hn]
      rw [List.range_succ_eq_map, List.map_cons, List.map_map]
      refine List.cons_eq_cons.mpr ⟨?_, ?_⟩
      · rw [show s + 15 * 0 = s by omega]
      · apply List.map_congr_left
        intro i _
        show minutesToTime (s + 15 + 15 * i) = minutesToTime (s + 15 * (i + 1))
        rw [show s + 15 * (i + 1) = s + 15 + 15 * i by omega]
    · have h0 : (e - s + 14) / 15 = 0 := by omega
      simp [genSlotsAux, hs, h0]

/-! ### Conflict detection -/

/-- Soundness of one loop step of `checkTaskConflicts`: a pushed entry
records the examined task itself, which is a placed task other than the
candidate whose half-open interval overlaps the candidate's. -/
theorem conflictEntry_some (taskId : String) (row sm em : Nat) (task : Task)
    (e : ConflictEntry) (h : conflictEntry taskId row sm em task = some e) :
    e.task = task ∧ task.id ≠ taskId ∧ ∃ pos, task.position = some pos ∧
      ¬(em ≤ timeToMinutes pos.startTime ∨
        sm ≥ timeToMinutes pos.startTime + task.duration * 15) := by
  unfold conflictEntry at h
  by_cases hid : task.id = taskId
  · rw [if_pos hid] at h
    cases h
  · rw [if_neg hid] at h
    cases hpos : task.position with
    | none => rw [hpos] at h; cases h
    | some pos =>
      rw [hpos] at h
      dsimp only at h
      by_cases hov : em ≤ timeToMinutes pos.startTime ∨
          sm ≥ timeToMinutes pos.startTime + task.duration * 15
      · rw [if_pos hov] at h; cases h
      · rw [if_neg hov] at h
        injection h with h
        exact ⟨by rw [← h], hid, pos, rfl, hov⟩

/-- Completeness of one loop step of `checkTaskConflicts`: a placed task
other than the candidate whose interval overlaps the candidate's is pushed. -/
theorem conflictEntry_of_overlap (taskId : String) (row sm em : Nat)
    (task : Task) (pos : Position) (hid : task.id ≠ taskId)
    (hpos : task.position = some pos)
    (hov : ¬(em ≤ timeToMinutes pos.startTime ∨
      sm ≥ timeToMinutes pos.startTime + task.duration * 15)) :
    ∃ e, conflictEntry taskId row sm em task = some e ∧ e.task = task := by
  unfold conflictEntry
  rw [if_neg hid, hpos]
  dsimp only
  rw [if_neg hov]
  exact ⟨_, rfl, rfl⟩

/-- The `overlapType` of every pushed entry is one of the four specific
kinds; the dead initial value `完全重複` and the dead `else` value
`部分重複` are never produced, because an overlapping candidate interval
that neither starts before nor ends after the existing one is contained
in it. -/
theorem conflictEntry_overlapType (taskId : String) (row sm em : Nat)
    (task : Task) (e : ConflictEntry)
    (h : conflictEntry taskId row sm em task = some e) :
    e.overlapType = "包含重複" ∨ e.overlapType = "内包重複" ∨
      e.overlapType = "前半重複" ∨ e.overlapType = "後半重複" := by
  unfold conflictEntry at h
  by_cases hid : task.id = taskId
  · rw [if_pos hid] at h; cases h
  · rw [if_neg hid] at h
    cases hpos : task.position with
    | none => rw [hpos] at h; cases h
    | some pos =>
      rw [hpos] at h
      dsimp only at h
      set es := timeToMinutes pos.startTime with hes
      by_cases hov : em ≤ es ∨ sm ≥ es + task.duration * 15
      · rw [if_pos hov] at h; cases h
      · rw [if_neg hov] at h
        injection h with h
        subst h
        by_cases h1 : sm < es ∧ em > es + task.duration * 15
        · rw [if_pos h1]; exact Or.inl rfl
        · rw [if_neg h1]
          by_cases h2 : sm ≥ es ∧ em ≤ es + task.duration * 15
          · rw [if_pos h2]; exact Or.inr (Or.inl rfl)
          · rw [if_neg h2]
            by_cases h3 : sm < es
            · rw [if_pos h3]; exact Or.inr (Or.inr (Or.inl rfl))
            · rw [if_neg h3]
              by_cases h4 : em > es + task.duration * 15
              · rw [if_pos h4]; exact Or.inr (Or.inr (Or.inr rfl))
              · omega

/-- Membership in the conflict list produced by `checkTaskConflicts`. -/
theorem mem_conflictingTasks (tasks : List Task) (taskId : String) (row : Nat)
    (startTime : String) (duration : Nat) (e : ConflictEntry) :
    e ∈ (checkTaskConflicts tasks taskId row startTime duration).conflictingTasks ↔
      ∃ task ∈ tasks, conflictEntry taskId row (timeToMinutes startTime)
        (timeToMinutes startTime + duration * 15) task = some e := by
  simp [checkTaskConflicts, List.mem_filterMap]

/-! ### Claims -/

/-- Claim C1: `checkTaskConflicts` uses half-open interval overlap.  An
existing placed task (other than the candidate's own id) whose interval
merely touches the candidate's interval at an endpoint — candidate end
equal to existing start, or candidate start equal to existing end — is
never reported as a conflict, in any rows; and any two intervals with a
positive-length intersection are always reported as a conflict, even when
the two tasks are in different rows (`row` and `pos.row` are arbitrary). -/
theorem checkTaskConflicts_half_open (tasks : List Task) (taskId : String)
    (row : Nat) (startTime : String) (duration : Nat) (t : Task)
    (pos : Position) (hmem : t ∈ tasks) (hpos : t.position = some pos)
    (hid : t.id ≠ taskId) :
    ((timeToMinutes startTime + duration * 15 = timeToMinutes pos.startTime ∨
        timeToMinutes startTime = timeToMinutes pos.startTime + t.duration * 15) →
      t ∉ ((checkTaskConflicts tasks taskId row startTime
        duration).conflictingTasks.map ConflictEntry.task))
    ∧ (max (timeToMinutes startTime) (timeToMinutes pos.startTime) <
        min (timeToMinutes startTime + duration * 15)
          (timeToMinutes pos.startTime + t.duration * 15) →
      t ∈ ((checkTaskConflicts tasks taskId row startTime
        duration).conflictingTasks.map ConflictEntry.task)) := by
  constructor
  · intro htouch hmem'
    obtain ⟨e, he, het⟩ := List.mem_map.mp hmem'
    obtain ⟨a, _, hae⟩ :=
      (mem_conflictingTasks tasks taskId row startTime duration e).mp he
    obtain ⟨hea, _, pos', hpos', hov⟩ := conflictEntry_some _ _ _ _ _ _ hae
    have hat : a = t := by rw [← hea, het]
    rw [hat] at hpos' hov
    have hpp : pos' = pos := by
      have := hpos'.symm.trans hpos
      exact Option.some.inj this
    rw [hpp] at hov
    omega
  · intro hlt
    have hov : ¬(timeToMinutes startTime + duration * 15 ≤
        timeToMinutes pos.startTime ∨
        timeToMinutes startTime ≥ timeToMinutes pos.startTime + t.duration * 15) := by
      omega
    obtain ⟨e, hesome, het⟩ :=
      conflictEntry_of_overlap taskId row _ _ t pos hid hpos hov
    exact List.mem_map.mpr ⟨e,
      (mem_conflictingTasks tasks taskId row startTime duration e).mpr
        ⟨t, hmem, hesome⟩, het⟩

/-- Witness for C1 at a concrete input: the candidate `[10:00,11:00)`
touching the placed `[09:00,10:00)` reports nothing, while the candidate
`[09:30,10:30)` in a different row is reported. -/
theorem checkTaskConflicts_half_open_witness :
    sampleTask1 ∉ ((checkTaskConflicts [sampleTask1] "task-2" 1 "10:00"
      4).conflictingTasks.map ConflictEntry.task)
    ∧ sampleTask1 ∈ ((checkTaskConflicts [sampleTask1] "task-2" 1 "09:30"
      4).conflictingTasks.map ConflictEntry.task) :=
  ⟨(checkTaskConflicts_half_open [sampleTask1] "task-2" 1 "10:00" 4 sampleTask1
      ⟨0, "09:00"⟩ (by decide) rfl (by decide)).1 (by decide),
    (checkTaskConflicts_half_open [sampleTask1] "task-2" 1 "09:30" 4 sampleTask1
      ⟨0, "09:00"⟩ (by decide) rfl (by decide)).2 (by decide)⟩

/-- Counterexample to claim C2 as stated: in the same-time different-row
scenario (duration-4 task placed at row 0 `"09:00"`, duration-4 candidate
checked at row 1 `"09:00"`), the single reported conflict's overlap
classification is `内包重複` ("contained"), not the "complete" (`完全重複`)
or "containing" (`包含重複`) kind the claim names. -/
theorem checkTaskConflicts_identical_not_containing :
    (checkTaskConflicts sampleTasks "task-2" 1 "09:00"
      4).conflictingTasks.map ConflictEntry.overlapType = ["内包重複"]
    ∧ ("内包重複" : String) ≠ "完全重複"
    ∧ ("内包重複" : String) ≠ "包含重複" := by decide

/-- Claim C2 as amended: in the same-time different-row scenario the
detector reports exactly one conflict, of the "different row" kind
(`異なる行重複 (行1)`), whose overlap classification is the
"contained" kind (`内包重複`, the branch taken for identical intervals);
the placement policy rejects the drop with the conflict message and the
first task's position is unchanged. -/
theorem sameTime_differentRow_contained_rejected :
    (checkTaskConflicts sampleTasks "task-2" 1 "09:00"
      4).conflictingTasks.map ConflictEntry.task = [sampleTask1]
    ∧ (checkTaskConflicts sampleTasks "task-2" 1 "09:00"
      4).conflictingTasks.map ConflictEntry.conflictType = ["異なる行重複 (行1)"]
    ∧ (checkTaskConflicts sampleTasks "task-2" 1 "09:00"
      4).conflictingTasks.map ConflictEntry.overlapType = ["内包重複"]
    ∧ (checkTaskConflicts sampleTasks "task-2" 1 "09:00" 4).hasConflict = true
    ∧ (dropTaskToTimeline "09:00" "18:00" sampleTasks "task-2" 1 "09:00").1 =
        sampleTasks
    ∧ (dropTaskToTimeline "09:00" "18:00" sampleTasks "task-2" 1 "09:00").2 =
        DropOutcome.conflictRejected (generateConflictMessage
          (checkTaskConflicts sampleTasks "task-2" 1 "09:00" 4).conflictingTasks)
    ∧ findTaskById (dropTaskToTimeline "09:00" "18:00" sampleTasks "task-2" 1
        "09:00").1 "task-1" = some sampleTask1 := by decide

/-- Claim C10: the classification fall-backs of `checkTaskConflicts` are
unreachable — every reported conflict's `overlapType` is one of the four
specific kinds (`包含重複`, `内包重複`, `前半重複`, `後半重複`); the `else`
value `部分重複` and the dead initial value `完全重複` are never returned. -/
theorem checkTaskConflicts_overlapType_total (tasks : List Task)
    (taskId : String) (row : Nat) (startTime : String) (duration : Nat)
    (e : ConflictEntry)
    (h : e ∈ (checkTaskConflicts tasks taskId row startTime
      duration).conflictingTasks) :
    (e.overlapType = "包含重複" ∨ e.overlapType = "内包重複" ∨
      e.overlapType = "前半重複" ∨ e.overlapType = "後半重複")
    ∧ e.overlapType ≠ "部分重複" ∧ e.overlapType ≠ "完全重複" := by
  obtain ⟨a, _, hae⟩ :=
    (mem_conflictingTasks tasks taskId row startTime duration e).mp h
  have h4 := conflictEntry_overlapType _ _ _ _ _ _ hae
  refine ⟨h4, ?_, ?_⟩ <;> rcases h4 with h' | h' | h' | h' <;> rw [h'] <;> decide

/-- Witness for C10 at a concrete input: the entry reported in the
same-time different-row scenario. -/
theorem checkTaskConflicts_overlapType_total_witness :
    (sampleEntry.overlapType = "包含重複" ∨ sampleEntry.overlapType = "内包重複" ∨
      sampleEntry.overlapType = "前半重複" ∨ sampleEntry.overlapType = "後半重複")
    ∧ sampleEntry.overlapType ≠ "部分重複" ∧ sampleEntry.overlapType ≠ "完全重複" :=
  checkTaskConflicts_overlapType_total sampleTasks "task-2" 1 "09:00" 4
    sampleEntry (by decide)

/-- Claim C3: `dropTaskToTimeline` checks conflicts before working hours.
Whenever the candidate interval of an existing task overlaps any currently
placed task other than itself, the drop is rejected with the formatted
conflict message over the full conflict list and the task list is left
unchanged — and this holds for arbitrary working hours, so a candidate that
is also outside working hours still gets the conflict message, never the
out-of-hours message. -/
theorem dropTaskToTimeline_conflict_first (workingStart workingEnd : String)
    (tasks : List Task) (taskId : String) (row : Nat) (startTime : String)
    (task : Task) (hfind : findTaskById tasks taskId = some task)
    (t : Task) (pos : Position) (hmem : t ∈ tasks) (hid : t.id ≠ taskId)
    (hpos : t.position = some pos)
    (hov : ¬(timeToMinutes startTime + task.duration * 15 ≤
        timeToMinutes pos.startTime ∨
      timeToMinutes startTime ≥ timeToMinutes pos.startTime + t.duration * 15)) :
    dropTaskToTimeline workingStart workingEnd tasks taskId row startTime =
      (tasks, DropOutcome.conflictRejected (generateConflictMessage
        (checkTaskConflicts tasks taskId row startTime
          task.duration).conflictingTasks)) := by
  obtain ⟨e, hesome, -⟩ :=
    conflictEntry_of_overlap taskId row _ _ t pos hid hpos hov
  have hememb : e ∈ (checkTaskConflicts tasks taskId row startTime
      task.duration).conflictingTasks :=
    (mem_conflictingTasks tasks taskId row startTime task.duration e).mpr
      ⟨t, hmem, hesome⟩
  have hc : (checkTaskConflicts tasks taskId row startTime
      task.duration).hasConflict = true :=
    decide_eq_true (List.length_pos.mpr (List.ne_nil_of_mem hememb))
  unfold dropTaskToTimeline
  rw [hfind]
  dsimp only
  rw [if_pos hc]

/-- Witness for C3 at a concrete input: the same-time different-row drop
with working hours `10:00–11:00`, under which the candidate `[09:00,10:00)`
is also outside working hours; the conflict message is still the one
produced. -/
theorem dropTaskToTimeline_conflict_first_witness :
    dropTaskToTimeline "10:00" "11:00" sampleTasks "task-2" 1 "09:00" =
      (sampleTasks, DropOutcome.conflictRejected (generateConflictMessage
        (checkTaskConflicts sampleTasks "task-2" 1 "09:00"
          sampleTask2.duration).conflictingTasks)) :=
  dropTaskToTimeline_conflict_first "10:00" "11:00" sampleTasks "task-2" 1
    "09:00" sampleTask2 (by decide) sampleTask1 ⟨0, "09:00"⟩ (by decide)
    (by decide) rfl (by decide)

/-- Claim C4: for a non-conflicting drop of an existing task, the placement
is committed iff the candidate interval lies within the working-hours
window with boundary touches allowed (`isWithinWorkingHours` is true iff
`startMinutes ≥ workStartMinutes` and `endMinutes ≤ workEndMinutes`);
otherwise the drop is rejected with the fixed out-of-hours message and the
task list is unchanged. -/
theorem dropTaskToTimeline_working_hours (workingStart workingEnd : String)
    (tasks : List Task) (taskId : String) (row : Nat) (startTime : String)
    (task : Task) (hfind : findTaskById tasks taskId = some task)
    (hnc : (checkTaskConflicts tasks taskId row startTime
      task.duration).hasConflict = false) :
    (isWithinWorkingHours startTime task.duration workingStart workingEnd = true ↔
      timeToMinutes startTime ≥ timeToMinutes workingStart ∧
        timeToMinutes startTime + task.duration * 15 ≤ timeToMinutes workingEnd)
    ∧ (isWithinWorkingHours startTime task.duration workingStart workingEnd = true →
        dropTaskToTimeline workingStart workingEnd tasks taskId row startTime =
          (placeTaskOnTimeline tasks taskId row startTime, DropOutcome.placed))
    ∧ (isWithinWorkingHours startTime task.duration workingStart workingEnd = false →
        dropTaskToTimeline workingStart workingEnd tasks taskId row startTime =
          (tasks, DropOutcome.outsideWorkingHours "業務時間外には配置できません")) := by
  refine ⟨?_, ?_, ?_⟩
  · simp [isWithinWorkingHours]
  · intro hw
    unfold dropTaskToTimeline
    rw [hfind]
    dsimp only
    rw [if_neg (by rw [hnc]; exact Bool.false_ne_true), hw]
    rfl
  · intro hw
    unfold dropTaskToTimeline
    rw [hfind]
    dsimp only
    rw [if_neg (by rw [hnc]; exact Bool.false_ne_true), hw]
    rfl

/-- Witness for C4 at a concrete input: the spec scenario — dropping a
30-minute task at `"17:45"` with working hours ending `"18:00"` is
rejected with the out-of-hours message (candidate end 18:15 > 18:00),
while the same drop at `"17:30"` (end exactly 18:00) is committed. -/
theorem dropTaskToTimeline_working_hours_witness :
    dropTaskToTimeline "09:00" "18:00" soloPoolTasks "task-1" 0 "17:45" =
      (soloPoolTasks, DropOutcome.outsideWorkingHours "業務時間外には配置できません")
    ∧ dropTaskToTimeline "09:00" "18:00" soloPoolTasks "task-1" 0 "17:30" =
      (placeTaskOnTimeline soloPoolTasks "task-1" 0 "17:30", DropOutcome.placed) :=
  ⟨(dropTaskToTimeline_working_hours "09:00" "18:00" soloPoolTasks "task-1" 0
      "17:45" soloPoolTask (by decide) (by decide)).2.2 (by decide),
    (dropTaskToTimeline_working_hours "09:00" "18:00" soloPoolTasks "task-1" 0
      "17:30" soloPoolTask (by decide) (by decide)).2.1 (by decide)⟩

/-- Claim C5: for every minute count `m` in `[0,1439]`,
`timeToMinutes (minutesToTime m) = m`; for every valid zero-padded
`"HH:MM"` string `s` with in-range value,
`minutesToTime (timeToMinutes s) = s`; and `minutesToTime` zero-pads both
the hour and the minute field to width 2. -/
theorem timeConversion_roundTrip :
    (∀ m : Nat, m ≤ 1439 → timeToMinutes (minutesToTime m) = m)
    ∧ (∀ s : String, isValidHHMM s = true → minutesToTime (timeToMinutes s) = s)
    ∧ (∀ m : Nat, m ≤ 1439 → (padStart2 (Nat.repr (m / 60))).length = 2 ∧
        (padStart2 (Nat.repr (m % 60))).length = 2) := by
  refine ⟨fun m _ => timeToMinutes_minutesToTime m,
    fun s hs => minutesToTime_timeToMinutes s hs, fun m hm => ?_⟩
  have h1 : (Nat.repr (m / 60)).length ≤ 2 :=
    Nat.repr_length (m / 60) 2 (by norm_num) (by omega)
  have h2 : (Nat.repr (m % 60)).length ≤ 2 :=
    Nat.repr_length (m % 60) 2 (by norm_num) (by omega)
  constructor
  · rw [padStart2_length]; omega
  · rw [padStart2_length]; omega

/-- Witness for C5 at concrete inputs: `870 = "14:30"` both ways. -/
theorem timeConversion_roundTrip_witness :
    timeToMinutes (minutesToTime 870) = 870
    ∧ minutesToTime (timeToMinutes "14:30") = "14:30"
    ∧ (padStart2 (Nat.repr (870 / 60))).length = 2
    ∧ (padStart2 (Nat.repr (870 % 60))).length = 2 :=
  ⟨timeConversion_roundTrip.1 870 (by decide),
    timeConversion_roundTrip.2.1 "14:30" (by decide),
    (timeConversion_roundTrip.2.2 870 (by decide)).1,
    (timeConversion_roundTrip.2.2 870 (by decide)).2⟩

/-- Claim C6: `generateTimeSlots start end` is exactly the sequence of
labels obtained by stepping 15 minutes at a time from `start` while
strictly below `end` (one label per step, `end` excluded, alignment
following `start`); in particular `generateTimeSlots "09:00" "12:00"`
is the 12 labels `"09:00" … "11:45"`, and `generateTimeSlots t t = []`
for every `t`. -/
theorem generateTimeSlots_stepping :
    (∀ startTime endTime : String,
      generateTimeSlots startTime endTime =
        (List.range ((timeToMinutes endTime - timeToMinutes startTime + 14) / 15)).map
          fun i => minutesToTime (timeToMinutes startTime + 15 * i))
    ∧ generateTimeSlots "09:00" "12:00" =
        ["09:00", "09:15", "09:30", "09:45", "10:00", "10:15", "10:30", "10:45",
          "11:00", "11:15", "11:30", "11:45"]
    ∧ ∀ t : String, generateTimeSlots t t = [] := by
  refine ⟨?_, by decide, ?_⟩
  · intro startTime endTime
    unfold generateTimeSlots
    apply genSlotsAux_eq
    omega
  · intro t
    unfold generateTimeSlots
    dsimp only
    rw [Nat.sub_self]
    rfl

/-- Claim C7: for every id that matches no task in the list, the four
repository transforms return the input list unchanged (a silent no-op)
and `findTaskById` returns the absent value. -/
theorem notFound_silent_noop (tasks : List Task) (taskId : String) (u : Task)
    (row : Nat) (startTime : String) (hu : u.id = taskId)
    (h : ∀ t ∈ tasks, t.id ≠ taskId) :
    updateTaskInList tasks u = tasks
    ∧ deleteTaskFromList tasks taskId = tasks
    ∧ placeTaskOnTimeline tasks taskId row startTime = tasks
    ∧ returnTaskToPool tasks taskId = tasks
    ∧ findTaskById tasks taskId = none := by
  refine ⟨?_, ?_, ?_, ?_, ?_⟩
  · unfold updateTaskInList
    rw [List.map_congr_left fun t ht =>
      if_neg (show ¬t.id = u.id by rw [hu]; exact h t ht), List.map_id']
  · unfold deleteTaskFromList
    rw [List.filter_eq_self.mpr]
    intro t ht
    simp [bne_iff_ne, h t ht]
  · unfold placeTaskOnTimeline
    rw [List.map_congr_left fun t ht => if_neg (h t ht), List.map_id']
  · unfold returnTaskToPool
    rw [List.map_congr_left fun t ht => if_neg (h t ht), List.map_id']
  · unfold findTaskById
    rw [List.find?_eq_none]
    intro t ht
    simp [h t ht]

/-- Witness for C7 at a concrete input: the id `"zzz"` matches nothing in
the two-task fixture list. -/
theorem notFound_silent_noop_witness :
    updateTaskInList sampleTasks ⟨"zzz", "n", 1, none⟩ = sampleTasks
    ∧ deleteTaskFromList sampleTasks "zzz" = sampleTasks
    ∧ placeTaskOnTimeline sampleTasks "zzz" 0 "09:00" = sampleTasks
    ∧ returnTaskToPool sampleTasks "zzz" = sampleTasks
    ∧ findTaskById sampleTasks "zzz" = none :=
  notFound_silent_noop sampleTasks "zzz" ⟨"zzz", "n", 1, none⟩ 0 "09:00" rfl
    (by decide)

/-- Counterexample to claim C8 as stated: for a list whose two tasks share
an id (one pooled, one placed), the pool and timeline subsequences are not
disjoint by id — the id `"dup"` occurs on both sides. -/
theorem poolTimeline_shared_id :
    "dup" ∈ (getPoolTasks dupIdTasks).map Task.id
    ∧ "dup" ∈ (getTimelineTasks dupIdTasks).map Task.id := by decide

/-- Claim C8 as amended: for every task list, `getPoolTasks` and
`getTimelineTasks` partition it — the lengths of the two results sum to
the input length, each result is a subsequence of the input (relative
order preserved), the two results share no element, and they are disjoint
by id provided the ids in the list are pairwise distinct (which the
counterexample shows is needed). -/
theorem poolTimeline_partition (tasks : List Task) :
    (getPoolTasks tasks).length + (getTimelineTasks tasks).length = tasks.length
    ∧ List.Sublist (getPoolTasks tasks) tasks
    ∧ List.Sublist (getTimelineTasks tasks) tasks
    ∧ (∀ t : Task, t ∈ getPoolTasks tasks → t ∉ getTimelineTasks tasks)
    ∧ ((tasks.map Task.id).Nodup →
        ∀ t1 ∈ getPoolTasks tasks, ∀ t2 ∈ getTimelineTasks tasks, t1.id ≠ t2.id) := by
  refine ⟨?_, List.filter_sublist tasks, List.filter_sublist tasks, ?_, ?_⟩
  · induction tasks with
    | nil => rfl
    | cons t ts ih =>
      by_cases hp : t.position = none <;>
        simp [getPoolTasks, getTimelineTasks, List.filter, hp] at ih ⊢ <;>
        omega
  · intro t hpool htime
    have h1 := (List.mem_filter.mp hpool).2
    have h2 := (List.mem_filter.mp htime).2
    simp at h1 h2
    exact h2 h1
  · intro hnodup t1 h1 t2 h2 hids
    have hm1 : t1 ∈ tasks := (List.mem_filter.mp h1).1
    have hm2 : t2 ∈ tasks := (List.mem_filter.mp h2).1
    have hp1 := (List.mem_filter.mp h1).2
    have hp2 := (List.mem_filter.mp h2).2
    simp at hp1 hp2
    have heq : t1 = t2 := List.inj_on_of_nodup_map hnodup hm1 hm2 hids
    rw [← heq] at hp2
    exact hp2 hp1

/-- Witness for C8 at a concrete input: the two-task fixture list, whose
ids are distinct. -/
theorem poolTimeline_partition_witness :
    (getPoolTasks sampleTasks).length + (getTimelineTasks sampleTasks).length =
      sampleTasks.length
    ∧ sampleTask2 ∉ getTimelineTasks sampleTasks
    ∧ ("task-2" : String) ≠ "task-1" :=
  ⟨(poolTimeline_partition sampleTasks).1,
    (poolTimeline_partition sampleTasks).2.2.2.1 sampleTask2 (by decide),
    (poolTimeline_partition sampleTasks).2.2.2.2 (by decide) sampleTask2
      (by decide) sampleTask1 (by decide)⟩

/-! ### The slot occupancy index -/

/-- Ensuring a fresh key at the end of the map makes it present. -/
theorem mapHas_append_empty (m : SlotMap) (k : String) :
    mapHas (m ++ [(k, [])]) k = true := by
  simp [mapHas, List.any_append]

/-- Appending a fresh empty entry never changes any lookup result. -/
theorem mapGetD_append_empty (m : SlotMap) (k k' : String) :
    mapGetD (m ++ [(k, [])]) k' = mapGetD m k' := by
  induction m with
  | nil =>
    simp only [List.nil_append, mapGetD]
    split <;> rfl
  | cons p rest ih =>
    simp only [List.cons_append, mapGetD]
    split
    · rfl
    · exact ih

/-- Pushing onto a present key appends to that key's list. -/
theorem mapGetD_mapPush_self (m : SlotMap) (k : String) (t : Task)
    (h : mapHas m k = true) :
    mapGetD (mapPush m k t) k = mapGetD m k ++ [t] := by
  induction m with
  | nil => simp [mapHas] at h
  | cons p rest ih =>
    by_cases hp : p.1 = k
    · simp only [mapPush, if_pos hp, mapGetD]
    · have h' : mapHas rest k = true := by
        simpa [mapHas, List.any_cons, hp] using h
      simp only [mapPush, if_neg hp, mapGetD, if_neg hp]
      exact ih h'

/-- Pushing onto key `k` leaves every other key's list unchanged. -/
theorem mapGetD_mapPush_other (m : SlotMap) (k k' : String) (t : Task)
    (h : k' ≠ k) : mapGetD (mapPush m k t) k' = mapGetD m k' := by
  induction m with
  | nil => rfl
  | cons p rest ih =>
    by_cases hp : p.1 = k
    · have hne : ¬p.1 = k' := by
        rw [hp]; intro hh; exact h hh.symm
      simp only [mapPush, if_pos hp, mapGetD, if_neg hne]
    · simp only [mapPush, if_neg hp, mapGetD, ih]

/-- The combined effect of one loop-body step of `createTimeSlotTaskMap`
on a lookup: ensure the key then push — the step's own key gains the task
at the end of its list, all other keys are untouched. -/
theorem mapGetD_ensure_push (m : SlotMap) (k k' : String) (t : Task) :
    mapGetD (mapPush (if mapHas m k then m else m ++ [(k, [])]) k t) k' =
      if k' = k then mapGetD m k ++ [t] else mapGetD m k' := by
  by_cases hk : k' = k
  · subst hk
    rw [if_pos rfl]
    by_cases hm : mapHas m k' = true
    · rw [if_pos hm, mapGetD_mapPush_self m k' t hm]
    · rw [if_neg hm,
        mapGetD_mapPush_self _ _ t (mapHas_append_empty m k'),
        mapGetD_append_empty]
  · rw [if_neg hk]
    by_cases hm : mapHas m k = true
    · rw [if_pos hm, mapGetD_mapPush_other _ _ _ _ hk]
    · rw [if_neg hm, mapGetD_mapPush_other _ _ _ _ hk, mapGetD_append_empty]

/-- The effect of the whole inner loop of `createTimeSlotTaskMap` on a
lookup: a key gains the task exactly when some iteration within the fuel
budget produces that key's label below `taskEnd`. -/
theorem slotLoop_getD (task : Task) (e : Nat) :
    ∀ (fuel time : Nat) (m : SlotMap) (k : String),
      mapGetD (slotLoop task e fuel time m) k =
        if ∃ j, j < fuel ∧ time + 15 * j < e ∧ minutesToTime (time + 15 * j) = k
        then mapGetD m k ++ [task] else mapGetD m k := by
  intro fuel
  induction fuel with
  | zero =>
    intro time m k
    rw [if_neg]
    · rfl
    · rintro ⟨j, hj, -, -⟩
      omega
  | succ fuel ih =>
    intro time m k
    by_cases ht : time < e
    · simp only [slotLoop, if_pos ht]
      rw [ih]
      by_cases hk : k = minutesToTime time
      · subst hk
        have hnoj : ¬∃ j, j < fuel ∧ time + 15 + 15 * j < e ∧
            minutesToTime (time + 15 + 15 * j) = minutesToTime time := by
          rintro ⟨j, -, -, hlab⟩
          have := minutesToTime_inj _ _ hlab
          omega
        rw [if_neg hnoj, mapGetD_ensure_push, if_pos rfl,
          if_pos ⟨0, by omega, by omega,
            by rw [show time + 15 * 0 = time from by omega]⟩]
      · rw [mapGetD_ensure_push, if_neg hk]
        have hiff : (∃ j, j < fuel ∧ time + 15 + 15 * j < e ∧
            minutesToTime (time + 15 + 15 * j) = k) ↔
            ∃ j, j < fuel + 1 ∧ time + 15 * j < e ∧
              minutesToTime (time + 15 * j) = k := by
          constructor
          · rintro ⟨j, hj, hlt, hlab⟩
            refine ⟨j + 1, by omega, ?_, ?_⟩
            · omega
            · rw [show time + 15 * (j + 1) = time + 15 + 15 * j by ring]
              exact hlab
          · rintro ⟨j, hj, hlt, hlab⟩
            cases j with
            | zero =>
              exfalso
              apply hk
              rw [← hlab, show time + 15 * 0 = time from by omega]
            | succ j =>
              refine ⟨j, by omega, ?_, ?_⟩
              · omega
              · rw [show time + 15 + 15 * j = time + 15 * (j + 1) by ring]
                exact hlab
        rw [if_congr hiff rfl rfl]
    · simp only [slotLoop, if_neg ht]
      rw [if_neg]
      rintro ⟨j, -, hlt, -⟩
      omega

/-- Predicate `occupiesSlot` characterized by the iteration steps of a placed task. -/
theorem occupiesSlot_iff (t : Task) (pos : Position)
    (hpos : t.position = some pos) (k : String) :
    occupiesSlot t k = true ↔ ∃ i, i < t.duration ∧
      minutesToTime (timeToMinutes pos.startTime + 15 * i) = k := by
  unfold occupiesSlot
  rw [hpos]
  simp [List.any_eq_true, List.mem_range]

/-- The effect of the task-level fold of `createTimeSlotTaskMap` on a
lookup: each processed task is appended, in iteration order, to the lists
of exactly the slots it occupies. -/
theorem foldl_slot_getD (L : List Task) :
    ∀ (m : SlotMap) (k : String),
      mapGetD (L.foldl slotStep m) k =
        mapGetD m k ++ L.filter fun t => occupiesSlot t k := by
  induction L with
  | nil => intro m k; simp
  | cons t L ih =>
    intro m k
    simp only [List.foldl_cons]
    cases hpos : t.position with
    | none =>
      rw [show slotStep m t = m from by unfold slotStep; rw [hpos]]
      rw [ih m k, List.filter_cons, if_neg (by simp [occupiesSlot, hpos])]
    | some pos =>
      rw [show slotStep m t =
          slotLoop t (timeToMinutes pos.startTime + t.duration * 15)
            (timeToMinutes pos.startTime + t.duration * 15 -
              timeToMinutes pos.startTime)
            (timeToMinutes pos.startTime) m from by unfold slotStep; rw [hpos]]
      rw [ih, slotLoop_getD]
      have hC : (∃ j, j < timeToMinutes pos.startTime + t.duration * 15 -
            timeToMinutes pos.startTime ∧
          timeToMinutes pos.startTime + 15 * j <
            timeToMinutes pos.startTime + t.duration * 15 ∧
          minutesToTime (timeToMinutes pos.startTime + 15 * j) = k) ↔
          occupiesSlot t k = true := by
        rw [occupiesSlot_iff t pos hpos k]
        constructor
        · rintro ⟨j, hj1, hj2, hj3⟩
          exact ⟨j, by omega, hj3⟩
        · rintro ⟨i, hi, hlab⟩
          exact ⟨i, by omega, by omega, hlab⟩
      by_cases ho : occupiesSlot t k = true
      · rw [if_pos (hC.mpr ho), List.filter_cons, if_pos ho]
        simp [List.append_assoc]
      · rw [if_neg (fun hcc => ho (hC.mp hcc)), List.filter_cons, if_neg ho]

/-- Claim C9: `createTimeSlotTaskMap` maps each 15-minute slot label to
the list of placed tasks whose interval covers that slot, in task
iteration order (the lookup of any label equals the input list filtered to
the tasks occupying it); a placed task with start `s` and duration `d`
occupies exactly the `d` pairwise-distinct slot labels
`s, s+15, …, s+15*(d-1)`; and a task with duration 0 or without a position
contributes no entries. -/
theorem createTimeSlotTaskMap_spec (tasks : List Task) (k : String) :
    mapGetD (createTimeSlotTaskMap tasks) k =
      (tasks.filter fun t => occupiesSlot t k)
    ∧ (∀ t : Task, ∀ pos : Position, t.position = some pos →
        (occupiesSlot t k = true ↔ ∃ i, i < t.duration ∧
          minutesToTime (timeToMinutes pos.startTime + 15 * i) = k))
    ∧ (∀ t : Task, ∀ pos : Position, t.position = some pos →
        ((List.range t.duration).map fun i =>
          minutesToTime (timeToMinutes pos.startTime + 15 * i)).Nodup)
    ∧ (∀ t : Task, t.duration = 0 ∨ t.position = none →
        t ∉ mapGetD (createTimeSlotTaskMap tasks) k) := by
  have hmain : mapGetD (createTimeSlotTaskMap tasks) k =
      (tasks.filter fun t => occupiesSlot t k) := by
    unfold createTimeSlotTaskMap
    rw [foldl_slot_getD, show mapGetD [] k = [] from rfl, List.nil_append,
      List.filter_filter]
    apply List.filter_congr
    intro t _
    cases hpos : t.position with
    | none => simp [occupiesSlot, hpos]
    | some pos => simp [hpos]
  refine ⟨hmain, fun t pos hpos => occupiesSlot_iff t pos hpos k,
    fun t pos _ => ?_, fun t hd hmem => ?_⟩
  · apply List.Nodup.map_on ?_ (List.nodup_range _)
    intro x _ y _ hxy
    have := minutesToTime_inj _ _ hxy
    omega
  · rw [hmain] at hmem
    have h2 := (List.mem_filter.mp hmem).2
    rcases hd with hd | hd
    · cases hp : t.position with
      | none =>
        unfold occupiesSlot at h2
        rw [hp] at h2
        cases h2
      | some pos =>
        unfold occupiesSlot at h2
        rw [hp, hd] at h2
        cases h2
    · unfold occupiesSlot at h2
      rw [hd] at h2
      cases h2

/-- Witness for C9 at a concrete input: the pooled fixture task occupies
no slot of the fixture list's map. -/
theorem createTimeSlotTaskMap_spec_witness :
    sampleTask2 ∉ mapGetD (createTimeSlotTaskMap sampleTasks) "09:30" :=
  (createTimeSlotTaskMap_spec sampleTasks "09:30").2.2.2 sampleTask2 (Or.inr rfl)

end NarabeTask
